import Mathlib

/-!
# Verification of the slot-game event system core

Shallow embedding of the publish/subscribe event core of the repository:
`src/events/EventBus.ts` (dispatcher), `src/events/EventLogger.ts`
(`EventLogger`), `src/events/EventManager.ts` (composition root) and the
handler lifecycle base `src/events/handlers/BaseEventHandler.ts`.

JavaScript `Map` and `Set` are insertion-ordered; they are embedded as
association lists resp. duplicate-free lists kept in insertion order.
Listener references are embedded as numeric identities (`ListenerId`), and a
listener's executable body is embedded as a finite list of primitive bus
actions (`Step`), which is enough to express subscription mutation and
thrown exceptions during dispatch.  `Set.prototype.forEach` over a live set
is embedded as "repeatedly visit the first not-yet-visited member of the
current set"; this matches ECMAScript semantics except in the corner where a
member already visited in the same traversal is deleted and re-inserted
(real `forEach` would visit it again) — no statement below depends on that
corner.
-/

namespace SlotGame

/-- An event record.  The source interface `IEvent` carries `type`,
`timestamp`, optional `data` and `source`; the dispatcher inspects only
`type` and stores records whole.  `idx` stands for the identity of the
record (its `id`/`timestamp`/payload), which the core never inspects. -/
structure Event where
  type : String
  idx : Nat
deriving DecidableEq, Repr

/-- Reference identity of a JavaScript listener (function or handler
object). -/
abbrev ListenerId := Nat

/-- One primitive action performed by a listener's body during its
invocation, in program order.  `throwErr` models the body raising an
exception at that point (the remaining actions of the body do not run). -/
inductive Step where
  | sub : String → ListenerId → Step
  | subAll : ListenerId → Step
  | unsub : String → ListenerId → Step
  | throwErr : Step
deriving DecidableEq, Repr

/-- The observable behaviour of one listener reference: whether it is a
plain callback function or a handler object (`isFn`), the optional
`canHandle` predicate of a handler object, and the bus actions its
`handle`/callback body performs when invoked.  `canHandle` is embedded as a
pure predicate on the event. -/
structure Behavior where
  isFn : Bool
  canHandlePred : Option (Event → Bool)
  body : List Step

/-- Behaviour of a listener reference the environment does not describe: a
plain callback that does nothing. -/
def defaultBehavior : Behavior := ⟨true, none, []⟩

/-- The environment assigning behaviours to listener references. -/
abbrev Env := List (ListenerId × Behavior)

/-- Behaviour lookup. -/
def envFind (env : Env) (l : ListenerId) : Behavior :=
  ((env.find? (fun p => p.1 = l)).map Prod.snd).getD defaultBehavior

/-- `EventBus.callListener`: the listener body is skipped (without being
counted as a failed delivery) exactly when the listener is a handler object
with a `canHandle` predicate returning `false` for this event
(EventBus.ts lines 120–134). -/
def skipsEvent (b : Behavior) (e : Event) : Bool :=
  !b.isFn && (match b.canHandlePred with
              | some p => !(p e)
              | none => false)

/-- JavaScript `Set.prototype.add`: append iff not already a member. -/
def setAdd (s : List ListenerId) (l : ListenerId) : List ListenerId :=
  if l ∈ s then s else s ++ [l]

/-- JavaScript `Set.prototype.delete`. -/
def setDelete (s : List ListenerId) (l : ListenerId) : List ListenerId :=
  s.filter (fun x => x ≠ l)

/-- The dispatcher's type-keyed listener registry, a JavaScript
`Map<string, Set<listener>>` in insertion order. -/
abbrev Registry := List (String × List ListenerId)

/-- `Map.prototype.get`. -/
def mapGet (m : Registry) (t : String) : Option (List ListenerId) :=
  (m.find? (fun p => p.1 = t)).map Prod.snd

/-- `Map.prototype.set`: replace in place if the key exists (keeping its
position in insertion order), otherwise append. -/
def mapSet (m : Registry) (t : String) (s : List ListenerId) : Registry :=
  if (m.find? (fun p => p.1 = t)).isSome then
    m.map (fun p => if p.1 = t then (t, s) else p)
  else m ++ [(t, s)]

/-- `Map.prototype.delete`. -/
def mapDelete (m : Registry) (t : String) : Registry :=
  m.filter (fun p => p.1 ≠ t)

/-- The mutable state of an `EventBus` instance (EventBus.ts lines 32–36).
The console-logging flag `isLoggingEnabled` only gates `console.log`
diagnostics and is not part of the embedded state. -/
structure BusState where
  listeners : Registry
  wildcardListeners : List ListenerId
  eventHistory : List Event
  maxHistorySize : Nat
deriving Repr

/-- A fresh `EventBus` (field initialisers, EventBus.ts lines 32–35). -/
def initialBus : BusState := ⟨[], [], [], 1000⟩

/-- An `EventSubscription` handle (EventBus.ts lines 6–25): the event type
(or `"*"` for wildcard), the listener reference, and the `active` flag. -/
structure SubscriptionRec where
  eventType : String
  listener : ListenerId
  active : Bool
deriving DecidableEq, Repr

/-- `EventBus.subscribe` (lines 41–56): ensure a set exists for the type,
add the listener to it, and return a fresh handle. -/
def subscribe (st : BusState) (t : String) (l : ListenerId) :
    BusState × SubscriptionRec :=
  let cur := (mapGet st.listeners t).getD []
  ({ st with listeners := mapSet st.listeners t (setAdd cur l) },
   ⟨t, l, true⟩)

/-- `EventBus.subscribeToAll` (lines 61–69). -/
def subscribeToAll (st : BusState) (l : ListenerId) :
    BusState × SubscriptionRec :=
  ({ st with wildcardListeners := setAdd st.wildcardListeners l },
   ⟨"*", l, true⟩)

/-- `EventBus.unsubscribe` (lines 74–90): remove the listener; a type whose
set becomes empty is dropped from the registry. -/
def unsubscribe (st : BusState) (t : String) (l : ListenerId) : BusState :=
  if t = "*" then
    { st with wildcardListeners := setDelete st.wildcardListeners l }
  else
    match mapGet st.listeners t with
    | none => st
    | some s =>
      let s2 := setDelete s l
      if s2.length = 0 then { st with listeners := mapDelete st.listeners t }
      else { st with listeners := mapSet st.listeners t s2 }

/-- `EventSubscription.unsubscribe` (lines 15–20): forward to the bus once,
then deactivate the handle; a second call is a no-op. -/
def subscriptionUnsubscribe (st : BusState) (s : SubscriptionRec) :
    BusState × SubscriptionRec :=
  if s.active then (unsubscribe st s.eventType s.listener, { s with active := false })
  else (st, s)

/-- `EventBus.addToHistory` (lines 139–146): push, then drop the oldest
entry when the size limit is exceeded. -/
def addToHistory (st : BusState) (e : Event) : BusState :=
  let h := st.eventHistory ++ [e]
  { st with eventHistory := if h.length > st.maxHistorySize then h.drop 1 else h }

/-- `EventBus.getSubscriberCount` (lines 172–175). -/
def getSubscriberCount (st : BusState) (t : String) : Nat :=
  ((mapGet st.listeners t).map List.length).getD 0

/-- `EventBus.clear` (lines 187–194): drop all subscriptions, specific and
wildcard.  The event history is *not* touched (that is the separate
`clearHistory`, lines 158–160). -/
def clear (st : BusState) : BusState :=
  { st with listeners := [], wildcardListeners := [] }

/-- `EventBus.clearHistory` (lines 158–160). -/
def clearHistory (st : BusState) : BusState :=
  { st with eventHistory := [] }

/-!
## Dispatch

`emit` (EventBus.ts lines 95–115) adds the event to the history, then runs
`forEach` over the (live) set for `event.type`, then over the (live)
wildcard set, wrapping each call in `callListener` (lines 120–134), whose
`try`/`catch` swallows anything the listener throws.

The dispatch state threads the bus, the invocation trace (`calls`: listeners
whose body was actually entered), the caught-failure trace (`errors`:
listeners whose body threw, reported via `console.error`), and `typeLive`:
whether the registry entry for the emitted type still refers to the very
`Set` object captured by `const eventListeners = this.listeners.get(...)`.
The alias is broken exactly when an `unsubscribe` empties that set and
deletes the registry entry; a set created for the same type afterwards is a
different object and is not iterated by the ongoing `forEach`.
-/

/-- State threaded through one `emit` call. -/
structure DispatchState where
  bus : BusState
  typeLive : Bool
  calls : List ListenerId
  errors : List ListenerId

/-- Effect of one non-throwing listener action on the bus, also updating the
liveness of the type-phase alias for type `t`. -/
def applyStep (t : String) (bl : BusState × Bool) (s : Step) : BusState × Bool :=
  match s with
  | .sub t' l => ((subscribe bl.1 t' l).1, bl.2)
  | .subAll l => ((subscribeToAll bl.1 l).1, bl.2)
  | .unsub t' l =>
      let st' := unsubscribe bl.1 t' l
      (st', bl.2 && (mapGet st'.listeners t).isSome)
  | .throwErr => bl

/-- Run a listener body in order; a `throwErr` aborts the rest of the body
and is reported as a caught exception (`true` in the result). -/
def runSteps (t : String) : List Step → BusState × Bool → (BusState × Bool) × Bool
  | [], bl => (bl, false)
  | .throwErr :: _, bl => (bl, true)
  | s :: rest, bl => runSteps t rest (applyStep t bl s)

/-- `EventBus.callListener` (lines 120–134): skip when `canHandle` denies
the event; otherwise invoke the body, catching a thrown exception so that it
never propagates while recording it as reported. -/
def callListener (env : Env) (e : Event) (t : String) (ds : DispatchState)
    (l : ListenerId) : DispatchState :=
  let b := envFind env l
  if skipsEvent b e then ds
  else
    let r := runSteps t b.body (ds.bus, ds.typeLive)
    { bus := r.1.1, typeLive := r.1.2,
      calls := ds.calls ++ [l],
      errors := ds.errors ++ (if r.2 then [l] else []) }

/-- The set currently being iterated by the type-specific `forEach`: the
registry entry for `t` while the alias is live, and the (empty) original
`Set` object once the alias has been broken. -/
def typeIterSet (t : String) (ds : DispatchState) : List ListenerId :=
  if ds.typeLive then (mapGet ds.bus.listeners t).getD [] else []

/-- One `Set.prototype.forEach` traversal over a live set: repeatedly visit
the first member of the current set not yet visited.  `fuel` bounds the
number of visits; `emit` supplies enough fuel for every body to run. -/
def phaseLoop (env : Env) (e : Event) (t : String)
    (iterSetOf : DispatchState → List ListenerId) :
    Nat → DispatchState → List ListenerId → DispatchState
  | 0, ds, _ => ds
  | fuel + 1, ds, visited =>
    match (iterSetOf ds).find? (fun l => !(visited.contains l)) with
    | none => ds
    | some l =>
        phaseLoop env e t iterSetOf fuel (callListener env e t ds l)
          (visited ++ [l])

/-- Total number of actions in all described bodies; used to bound how many
new members `forEach` can still encounter. -/
def envStepCount (env : Env) : Nat :=
  (env.map (fun p => p.2.body.length)).sum

/-- `EventBus.emit` (lines 95–115): history, then the type-specific
notification phase, then the wildcard notification phase. -/
def emit (env : Env) (st : BusState) (e : Event) : DispatchState :=
  let st1 := addToHistory st e
  let ds0 : DispatchState :=
    { bus := st1, typeLive := (mapGet st1.listeners e.type).isSome,
      calls := [], errors := [] }
  let fuelT := ((mapGet st1.listeners e.type).getD []).length + envStepCount env + 1
  let ds1 := phaseLoop env e e.type (typeIterSet e.type) fuelT ds0 []
  let fuelW := ds1.bus.wildcardListeners.length + envStepCount env + 1
  phaseLoop env e e.type (fun ds => ds.bus.wildcardListeners) fuelW ds1 []

/-- Fold a sequence of `emit` calls, collecting each call's invocation
trace. -/
def emitSeq (env : Env) : List Event → BusState → BusState × List (List ListenerId)
  | [], st => (st, [])
  | e :: es, st =>
    let ds := emit env st e
    let r := emitSeq env es ds.bus
    (r.1, ds.calls :: r.2)

/-!
## Event logger (`src/events/EventLogger.ts`)

Log levels are the numeric values of the source enum:
`NONE = 0, ERROR = 1, WARN = 2, INFO = 3, DEBUG = 4, VERBOSE = 5`.

The configuration fields `enableConsoleOutput` and `enableLocalStorage` only
gate console printing and the best-effort `localStorage` snapshot — pure
I/O side effects that never change the buffer — so they are not part of the
embedded state.  A log entry's `timestamp`/`message`/`context` fields are
likewise diagnostic only; the embedded entry keeps the originating event and
the severity level, which is all the buffer queries inspect.
-/

/-- `LogLevel.INFO`. -/
def levelINFO : Nat := 3

/-- `LogLevel.DEBUG`. -/
def levelDEBUG : Nat := 4

/-- An `EventLogEntry` (EventLogger.ts lines 19–25), restricted to the
fields the buffer queries inspect. -/
structure LogEntry where
  event : Event
  level : Nat
deriving DecidableEq, Repr

/-- The resolved `EventLoggerConfig` (EventLogger.ts lines 50–57),
restricted to the fields that affect the buffer. -/
structure EventLoggerConfig where
  maxLogEntries : Nat
  logLevel : Nat
  filterEventTypes : List String
  excludeEventTypes : List String
deriving DecidableEq, Repr

/-- The mutable state of an `EventLogger` instance. -/
structure LoggerState where
  logs : List LogEntry
  config : EventLoggerConfig
  isActive : Bool
deriving Repr

/-- `EventLogger.shouldLogEvent` (lines 127–141): level gate first, then the
include list (when non-empty, it alone decides), then the exclude list. -/
def shouldLogEvent (cfg : EventLoggerConfig) (e : Event) (level : Nat) : Bool :=
  if level > cfg.logLevel then false
  else if cfg.filterEventTypes.length > 0 then cfg.filterEventTypes.contains e.type
  else if cfg.excludeEventTypes.contains e.type then false
  else true

/-- `EventLogger.addLogEntry` (lines 157–169): push, then drop the oldest
entry when `maxLogEntries` is exceeded. -/
def addLogEntry (ls : LoggerState) (le : LogEntry) : LoggerState :=
  let h := ls.logs ++ [le]
  { ls with logs := if h.length > ls.config.maxLogEntries then h.drop 1 else h }

/-- `EventLogger.logEvent` (lines 87–100); the wildcard closure installed by
`start` calls it with only the event, so `level` defaults to
`LogLevel.DEBUG`. -/
def logEvent (ls : LoggerState) (e : Event) (level : Nat := levelDEBUG) :
    LoggerState :=
  if shouldLogEvent ls.config e level then addLogEntry ls ⟨e, level⟩ else ls

/-- `EventLogger.log` (lines 105–122): a logger-originated entry whose
synthesised event has type `"logger:message"`, subject to the same level
gate. -/
def logMessage (ls : LoggerState) (level : Nat) : LoggerState :=
  if level > ls.config.logLevel then ls
  else addLogEntry ls ⟨⟨"logger:message", 0⟩, level⟩

/-- `EventLogger.getLogsByEventType` (lines 242–244). -/
def getLogsByEventType (ls : LoggerState) (t : String) : List LogEntry :=
  ls.logs.filter (fun le => le.event.type = t)

/-- A bus together with an `EventLogger` attached to it.  `closures` records
the listener identities of the wildcard closures the logger has created via
`start` (the source drops the returned subscription handle, so they are
never unsubscribed by the logger itself). -/
structure LoggerSystem where
  bus : BusState
  logger : LoggerState
  closures : List ListenerId
deriving Repr

/-- `EventLogger.start` (lines 63–72): no-op when active; otherwise mark
active, subscribe a fresh wildcard closure (its handle is discarded), and
log an INFO `started` message. -/
def loggerStart (sys : LoggerSystem) (newId : ListenerId) : LoggerSystem :=
  if sys.logger.isActive then sys
  else
    { bus := (subscribeToAll sys.bus newId).1,
      logger := logMessage { sys.logger with isActive := true } levelINFO,
      closures := sys.closures ++ [newId] }

/-- `EventLogger.stop` on the logger state alone (lines 77–82): no-op when
inactive; otherwise mark inactive and log an INFO `stopped` message.
Nothing is unsubscribed and the installed wildcard closure keeps calling
`logEvent`, which never consults `isActive`. -/
def loggerStopState (ls : LoggerState) : LoggerState :=
  if ls.isActive then logMessage { ls with isActive := false } levelINFO
  else ls

/-- `EventLogger.stop` at the system level: the bus is untouched. -/
def loggerStop (sys : LoggerSystem) : LoggerSystem :=
  { sys with logger := loggerStopState sys.logger }

/-- `EventBus.emit` specialised to a bus whose only described listeners are
the logger's wildcard closures (the configuration of the logger claims):
the event is appended to the history, there are no type-specific listeners,
and the wildcard `forEach` runs each logger closure, i.e. `logEvent` at the
default `DEBUG` level; listeners other than logger closures do nothing.
Closures never mutate the subscription sets, so the live `forEach` is a
plain fold over the wildcard set. -/
def systemEmit (sys : LoggerSystem) (e : Event) : LoggerSystem :=
  { bus := addToHistory sys.bus e,
    logger := sys.bus.wildcardListeners.foldl
      (fun lg l => if sys.closures.contains l then logEvent lg e else lg)
      sys.logger,
    closures := sys.closures }

/-- Fold a sequence of `systemEmit` calls. -/
def systemEmitAll (sys : LoggerSystem) (es : List Event) : LoggerSystem :=
  es.foldl systemEmit sys

/-!
## Handler lifecycle and manager
(`src/events/handlers/BaseEventHandler.ts`, `src/events/EventManager.ts`)
-/

/-- The lifecycle state of a `BaseEventHandler` (BaseEventHandler.ts lines
8–12): the `isActive` flag and the recorded subscription handles. -/
structure HandlerState where
  isActive : Bool
  subscriptions : List SubscriptionRec
deriving Repr

/-- `BaseEventHandler.stop` (lines 39–46) followed by
`cleanupSubscriptions` (lines 61–66): when active, unsubscribe every
recorded handle from the bus and clear the record. -/
def handlerStop (st : BusState) (h : HandlerState) : BusState × HandlerState :=
  if h.isActive then
    (h.subscriptions.foldl (fun acc s => (subscriptionUnsubscribe acc s).1) st,
     { isActive := false, subscriptions := [] })
  else (st, h)

/-- The mutable state of an `EventManager` (EventManager.ts lines 14–19):
the bus, the name-keyed handler registry (a JavaScript `Map` in insertion
order), the optional logger, and the one-shot `initialize` guard.  The
optional `DebugConsole` only renders text and holds no state the claims
inspect. -/
structure ManagerState where
  bus : BusState
  handlers : List (String × HandlerState)
  eventLogger : Option LoggerState
  isInitialized : Bool

/-- `EventManager.stopAllHandlers` (lines 131–136): stop every handler in
registry order, threading the bus through the unsubscriptions. -/
def stopAllHandlers (m : ManagerState) :
    BusState × List (String × HandlerState) :=
  m.handlers.foldl
    (fun acc nh =>
      let r := handlerStop acc.1 nh.2
      (r.1, acc.2 ++ [(nh.1, r.2)]))
    (m.bus, [])

/-- `EventManager.destroy` (lines 264–279): stop all handlers, clear the
handler registry, stop the logger, clear the bus subscriptions
(`EventBus.clear`, which leaves the history in place), and reset the
`initialize` guard. -/
def managerDestroy (m : ManagerState) : ManagerState :=
  let r := stopAllHandlers m
  { bus := clear r.1,
    handlers := [],
    eventLogger := m.eventLogger.map loggerStopState,
    isInitialized := false }

/-!
## Descriptors used by the dispatch theorems
-/

/-- Whether a listener action changes the subscription registries. -/
def Step.mutates : Step → Bool
  | .throwErr => false
  | _ => true

/-- A behaviour whose body performs no subscription mutation (it may still
throw). -/
def nonMutating (b : Behavior) : Bool :=
  b.body.all (fun s => !s.mutates)

/-- An environment in which no described listener mutates subscriptions
during its invocation. -/
def envNonMutating (env : Env) : Bool :=
  env.all (fun p => nonMutating p.2)

/-- The sub-list of `S` whose listeners actually have their body invoked for
`e` (those not skipped by a `canHandle` veto). -/
def notifiedOf (env : Env) (e : Event) (S : List ListenerId) : List ListenerId :=
  S.filter (fun l => !(skipsEvent (envFind env l) e))

/-- The sub-list of `S` whose listeners are invoked for `e` and whose
(non-mutating) body throws, i.e. the failures caught and reported by
`callListener`. -/
def reportedOf (env : Env) (e : Event) (S : List ListenerId) : List ListenerId :=
  S.filter (fun l =>
    !(skipsEvent (envFind env l) e) && !(envFind env l).body.isEmpty)

/-- The last `n` entries of a list (all of it when it is shorter). -/
def lastN {α : Type} (n : Nat) (l : List α) : List α :=
  l.drop (l.length - n)

/-!
## Concrete scenario inputs
-/

/-- A do-nothing plain callback. -/
def idleFn : Behavior := ⟨true, none, []⟩

/-- Scenario environment: listeners `0`, `1`, `2` are inert callbacks. -/
def envABC : Env := [(0, idleFn), (1, idleFn), (2, idleFn)]

/-- Scenario bus: `0` then `1` subscribed to `"win"`, `2` to the
wildcard. -/
def stABC : BusState := ⟨[("win", [0, 1])], [2], [], 1000⟩

/-- Scenario environment in which listener `1` throws when invoked. -/
def envThrow : Env := [(0, idleFn), (1, ⟨true, none, [.throwErr]⟩), (2, idleFn)]

/-- Scenario environment: listener `0` unsubscribes listener `1` from type
`"t"` during its own invocation; `1` is inert. -/
def envC3 : Env := [(0, ⟨true, none, [.unsub "t" 1]⟩), (1, idleFn)]

/-- Scenario bus: `0` then `1` subscribed to `"t"`, nothing else. -/
def stC3 : BusState := ⟨[("t", [0, 1])], [], [], 1000⟩

/-- Scenario environment: listener `0` subscribes the fresh listener `5` to
type `"t"` during its own invocation. -/
def envC3add : Env := [(0, ⟨true, none, [.sub "t" 5]⟩)]

/-- Scenario bus: only `0` subscribed to `"t"`. -/
def stC3add : BusState := ⟨[("t", [0])], [], [], 1000⟩

/-- Scenario environment: listener `0` unsubscribes itself from `"t"`
during its own invocation; `1` is inert. -/
def envC3self : Env := [(0, ⟨true, none, [.unsub "t" 0]⟩), (1, idleFn)]

/-- Scenario environment: listener `0` is a handler object whose
`canHandle` accepts only `"other"` events; `1` is an inert callback. -/
def envC9 : Env :=
  [(0, ⟨false, some (fun e => e.type = "other"), []⟩), (1, idleFn)]

/-- Logger configuration with level `INFO` and empty include/exclude
filters. -/
def cfgINFO : EventLoggerConfig := ⟨1000, levelINFO, [], []⟩

/-- Logger configuration with level `DEBUG` and empty include/exclude
filters. -/
def cfgDEBUG : EventLoggerConfig := ⟨1000, levelDEBUG, [], []⟩

/-- A started logger at level `INFO` on a fresh bus; `100` is the identity
of the wildcard closure created by `start`. -/
def sysINFO : LoggerSystem := loggerStart ⟨initialBus, ⟨[], cfgINFO, false⟩, []⟩ 100

/-- A started logger at level `DEBUG` on a fresh bus. -/
def sysDEBUG : LoggerSystem := loggerStart ⟨initialBus, ⟨[], cfgDEBUG, false⟩, []⟩ 100

/-- Three distinct events of type `"x"`. -/
def threeX : List Event := [⟨"x", 1⟩, ⟨"x", 2⟩, ⟨"x", 3⟩]

/-- An initialized manager: one active handler holding a live subscription,
a started logger (its closure `100` on the bus wildcard set), and one event
already in the dispatcher history. -/
def mgrScenario : ManagerState :=
  { bus := ⟨[("t", [0])], [100], [⟨"a", 1⟩], 1000⟩,
    handlers := [("ui", ⟨true, [⟨"t", 0, true⟩]⟩)],
    eventLogger := some ⟨[], cfgINFO, true⟩,
    isInitialized := true }

/-!
## Basic preservation lemmas

Subscription bookkeeping never touches the history buffer or its capacity,
and dispatch never touches the subscription-independent fields.
-/

theorem unsubscribe_eventHistory (st : BusState) (t : String) (l : ListenerId) :
    (unsubscribe st t l).eventHistory = st.eventHistory := by
  unfold unsubscribe
  split
  · rfl
  · split
    · rfl
    · dsimp only
      split <;> rfl

theorem unsubscribe_maxHistorySize (st : BusState) (t : String) (l : ListenerId) :
    (unsubscribe st t l).maxHistorySize = st.maxHistorySize := by
  unfold unsubscribe
  split
  · rfl
  · split
    · rfl
    · dsimp only
      split <;> rfl

theorem applyStep_eventHistory (t : String) (bl : BusState × Bool) (s : Step) :
    (applyStep t bl s).1.eventHistory = bl.1.eventHistory := by
  cases s <;> simp [applyStep, subscribe, subscribeToAll, unsubscribe_eventHistory]

theorem applyStep_maxHistorySize (t : String) (bl : BusState × Bool) (s : Step) :
    (applyStep t bl s).1.maxHistorySize = bl.1.maxHistorySize := by
  cases s <;> simp [applyStep, subscribe, subscribeToAll, unsubscribe_maxHistorySize]

theorem runSteps_eventHistory (t : String) :
    ∀ (body : List Step) (bl : BusState × Bool),
      (runSteps t body bl).1.1.eventHistory = bl.1.eventHistory := by
  intro body
  induction body with
  | nil => intro bl; rfl
  | cons s rest ih =>
    intro bl
    cases s with
    | throwErr => rfl
    | sub t' l => rw [show runSteps t (.sub t' l :: rest) bl
                        = runSteps t rest (applyStep t bl (.sub t' l)) from rfl,
                      ih, applyStep_eventHistory]
    | subAll l => rw [show runSteps t (.subAll l :: rest) bl
                        = runSteps t rest (applyStep t bl (.subAll l)) from rfl,
                      ih, applyStep_eventHistory]
    | unsub t' l => rw [show runSteps t (.unsub t' l :: rest) bl
                          = runSteps t rest (applyStep t bl (.unsub t' l)) from rfl,
                        ih, applyStep_eventHistory]

theorem runSteps_maxHistorySize (t : String) :
    ∀ (body : List Step) (bl : BusState × Bool),
      (runSteps t body bl).1.1.maxHistorySize = bl.1.maxHistorySize := by
  intro body
  induction body with
  | nil => intro bl; rfl
  | cons s rest ih =>
    intro bl
    cases s with
    | throwErr => rfl
    | sub t' l => rw [show runSteps t (.sub t' l :: rest) bl
                        = runSteps t rest (applyStep t bl (.sub t' l)) from rfl,
                      ih, applyStep_maxHistorySize]
    | subAll l => rw [show runSteps t (.subAll l :: rest) bl
                        = runSteps t rest (applyStep t bl (.subAll l)) from rfl,
                      ih, applyStep_maxHistorySize]
    | unsub t' l => rw [show runSteps t (.unsub t' l :: rest) bl
                          = runSteps t rest (applyStep t bl (.unsub t' l)) from rfl,
                        ih, applyStep_maxHistorySize]

theorem callListener_eventHistory (env : Env) (e : Event) (t : String)
    (ds : DispatchState) (l : ListenerId) :
    (callListener env e t ds l).bus.eventHistory = ds.bus.eventHistory := by
  unfold callListener
  dsimp only
  split
  · rfl
  · exact runSteps_eventHistory t _ _

theorem callListener_maxHistorySize (env : Env) (e : Event) (t : String)
    (ds : DispatchState) (l : ListenerId) :
    (callListener env e t ds l).bus.maxHistorySize = ds.bus.maxHistorySize := by
  unfold callListener
  dsimp only
  split
  · rfl
  · exact runSteps_maxHistorySize t _ _

theorem phaseLoop_eventHistory (env : Env) (e : Event) (t : String)
    (iterSetOf : DispatchState → List ListenerId) :
    ∀ (fuel : Nat) (ds : DispatchState) (visited : List ListenerId),
      (phaseLoop env e t iterSetOf fuel ds visited).bus.eventHistory
        = ds.bus.eventHistory := by
  intro fuel
  induction fuel with
  | zero => intro ds visited; rfl
  | succ f ih =>
    intro ds visited
    unfold phaseLoop
    split
    · rfl
    · rw [ih, callListener_eventHistory]

theorem phaseLoop_maxHistorySize (env : Env) (e : Event) (t : String)
    (iterSetOf : DispatchState → List ListenerId) :
    ∀ (fuel : Nat) (ds : DispatchState) (visited : List ListenerId),
      (phaseLoop env e t iterSetOf fuel ds visited).bus.maxHistorySize
        = ds.bus.maxHistorySize := by
  intro fuel
  induction fuel with
  | zero => intro ds visited; rfl
  | succ f ih =>
    intro ds visited
    unfold phaseLoop
    split
    · rfl
    · rw [ih, callListener_maxHistorySize]

/-- Dispatch leaves the history exactly as `addToHistory` set it: listener
bodies can only change the subscription registries. -/
theorem emit_eventHistory (env : Env) (st : BusState) (e : Event) :
    (emit env st e).bus.eventHistory = (addToHistory st e).eventHistory := by
  unfold emit
  rw [phaseLoop_eventHistory, phaseLoop_eventHistory]

theorem emit_maxHistorySize (env : Env) (st : BusState) (e : Event) :
    (emit env st e).bus.maxHistorySize = st.maxHistorySize := by
  unfold emit
  rw [phaseLoop_maxHistorySize, phaseLoop_maxHistorySize]
  rfl

/-!
## Dispatch under non-mutating listeners

When no listener body changes the subscription registries, the live
`forEach` of `emit` visits exactly the members of the relevant set, in
order, regardless of thrown exceptions and `canHandle` vetoes.
-/

theorem step_not_mutates_iff (s : Step) : s.mutates = false ↔ s = .throwErr := by
  cases s <;> simp [Step.mutates]

theorem runSteps_nonmut (t : String) (body : List Step) (bl : BusState × Bool)
    (h : body.all (fun s => !s.mutates) = true) :
    runSteps t body bl = (bl, !body.isEmpty) := by
  cases body with
  | nil => rfl
  | cons s rest =>
    have hs : s.mutates = false := by
      have := (List.all_eq_true.mp h) s (by simp)
      simpa using this
    rw [(step_not_mutates_iff s).mp hs]
    rfl

theorem envFind_nonMutating (env : Env) (henv : envNonMutating env = true)
    (l : ListenerId) : nonMutating (envFind env l) = true := by
  unfold envFind
  cases hf : env.find? (fun p => p.1 = l) with
  | none => rfl
  | some p =>
    have hp : p ∈ env := List.mem_of_find?_eq_some hf
    have := (List.all_eq_true.mp henv) p hp
    simpa using this

theorem callListener_skip (env : Env) (e : Event) (t : String)
    (ds : DispatchState) (l : ListenerId)
    (h : skipsEvent (envFind env l) e = true) :
    callListener env e t ds l = ds := by
  unfold callListener
  simp [h]

theorem callListener_active (env : Env) (e : Event) (t : String)
    (ds : DispatchState) (l : ListenerId)
    (henv : envNonMutating env = true)
    (h : skipsEvent (envFind env l) e = false) :
    callListener env e t ds l =
      { bus := ds.bus, typeLive := ds.typeLive,
        calls := ds.calls ++ [l],
        errors := ds.errors
          ++ (if !(envFind env l).body.isEmpty then [l] else []) } := by
  unfold callListener
  dsimp only
  rw [h]
  simp only [Bool.false_eq_true, if_false]
  rw [runSteps_nonmut t _ _ (envFind_nonMutating env henv l)]

/-- Under a non-mutating environment, one `callListener` only appends to the
traces: the notified singleton and the reported singleton of `l`. -/
theorem callListener_nonmut_eq (env : Env) (e : Event) (t : String)
    (ds : DispatchState) (l : ListenerId)
    (henv : envNonMutating env = true) :
    callListener env e t ds l =
      { bus := ds.bus, typeLive := ds.typeLive,
        calls := ds.calls ++ notifiedOf env e [l],
        errors := ds.errors ++ reportedOf env e [l] } := by
  cases hskip : skipsEvent (envFind env l) e with
  | true =>
    rw [callListener_skip env e t ds l hskip]
    simp [notifiedOf, reportedOf, hskip]
  | false =>
    rw [callListener_active env e t ds l henv hskip]
    simp only [notifiedOf, reportedOf, List.filter_cons, List.filter_nil, hskip]
    cases hb : (envFind env l).body <;> simp [hb]

theorem find?_append_left_none {α : Type} (p : α → Bool) :
    ∀ (P L : List α), (∀ x ∈ P, p x = false) → (P ++ L).find? p = L.find? p := by
  intro P
  induction P with
  | nil => intro L _; rfl
  | cons a P2 ih =>
    intro L h
    rw [List.cons_append, List.find?_cons_of_neg _ (by simp [h a (by simp)]),
        ih L (fun x hx => h x (by simp [hx]))]

theorem find?_first_unvisited (P R : List ListenerId) (r : ListenerId)
    (hr : r ∉ P) :
    (P ++ r :: R).find? (fun l => !(P.contains l)) = some r := by
  rw [find?_append_left_none _ P _ (fun x hx => by simp [hx])]
  exact List.find?_cons_of_pos _ (by simp [hr])

/-- The live `forEach` under a non-mutating environment: starting with
`visited = P` over the constant set `P ++ R`, it visits exactly `R` in
order, appending the notified and reported members of `R` to the traces. -/
theorem phaseLoop_nonmut (env : Env) (e : Event) (t : String)
    (iterSetOf : DispatchState → List ListenerId)
    (henv : envNonMutating env = true)
    (hiter : ∀ (ds : DispatchState) (c er : List ListenerId),
      iterSetOf { bus := ds.bus, typeLive := ds.typeLive, calls := c, errors := er }
        = iterSetOf ds) :
    ∀ (R P : List ListenerId) (fuel : Nat) (ds : DispatchState),
      iterSetOf ds = P ++ R → (P ++ R).Nodup → R.length ≤ fuel →
      phaseLoop env e t iterSetOf fuel ds P =
        { bus := ds.bus, typeLive := ds.typeLive,
          calls := ds.calls ++ notifiedOf env e R,
          errors := ds.errors ++ reportedOf env e R } := by
  intro R
  induction R with
  | nil =>
    intro P fuel ds hset hnd _
    have hnone : (iterSetOf ds).find? (fun l => !(P.contains l)) = none := by
      rw [hset, List.append_nil]
      exact List.find?_eq_none.mpr (fun x hx => by simp [hx])
    cases fuel with
    | zero => simp [phaseLoop, notifiedOf, reportedOf]
    | succ f =>
      unfold phaseLoop
      rw [hnone]
      simp [notifiedOf, reportedOf]
  | cons r R2 ih =>
    intro P fuel ds hset hnd hfuel
    cases fuel with
    | zero => exact absurd hfuel (by simp)
    | succ f =>
      have hrP : r ∉ P := by
        rw [List.nodup_append] at hnd
        exact fun hmem => (hnd.2.2 hmem (by simp)).elim
      have hfind : (iterSetOf ds).find? (fun l => !(P.contains l)) = some r := by
        rw [hset]
        exact find?_first_unvisited P R2 r hrP
      have hcl := callListener_nonmut_eq env e t ds r henv
      have happ : P ++ r :: R2 = (P ++ [r]) ++ R2 := by
        rw [List.append_assoc]
        rfl
      have hset2 : iterSetOf (callListener env e t ds r) = (P ++ [r]) ++ R2 := by
        rw [hcl, hiter, hset, happ]
      have hnd2 : ((P ++ [r]) ++ R2).Nodup := by rw [← happ]; exact hnd
      unfold phaseLoop
      rw [hfind]
      dsimp only
      rw [ih (P ++ [r]) f (callListener env e t ds r) hset2 hnd2 (by simpa using hfuel)]
      rw [hcl]
      have hnot : notifiedOf env e (r :: R2)
          = notifiedOf env e [r] ++ notifiedOf env e R2 := by
        unfold notifiedOf
        rw [← List.filter_append]
        rfl
      have hrep : reportedOf env e (r :: R2)
          = reportedOf env e [r] ++ reportedOf env e R2 := by
        unfold reportedOf
        rw [← List.filter_append]
        rfl
      rw [hnot, hrep]
      simp [List.append_assoc]

theorem addToHistory_listeners (st : BusState) (e : Event) :
    (addToHistory st e).listeners = st.listeners := rfl

theorem addToHistory_wildcard (st : BusState) (e : Event) :
    (addToHistory st e).wildcardListeners = st.wildcardListeners := rfl

/-- `emit` under a non-mutating environment: the type-specific set is
notified first, then the wildcard set, modulo `canHandle` vetoes; thrown
exceptions are caught and reported without removing anybody from the
delivery; the bus changes only by the history append. -/
theorem emit_nonMutating (env : Env) (st : BusState) (e : Event)
    (henv : envNonMutating env = true)
    (hT : ((mapGet st.listeners e.type).getD []).Nodup)
    (hW : st.wildcardListeners.Nodup) :
    (emit env st e).calls
        = notifiedOf env e ((mapGet st.listeners e.type).getD [])
          ++ notifiedOf env e st.wildcardListeners
    ∧ (emit env st e).errors
        = reportedOf env e ((mapGet st.listeners e.type).getD [])
          ++ reportedOf env e st.wildcardListeners
    ∧ (emit env st e).bus = addToHistory st e := by
  have hiter1 : ∀ (ds : DispatchState) (c er : List ListenerId),
      typeIterSet e.type
          { bus := ds.bus, typeLive := ds.typeLive, calls := c, errors := er }
        = typeIterSet e.type ds := by
    intro ds c er; rfl
  have hiter2 : ∀ (ds : DispatchState) (c er : List ListenerId),
      (fun ds => ds.bus.wildcardListeners)
          ({ bus := ds.bus, typeLive := ds.typeLive, calls := c, errors := er }
            : DispatchState)
        = (fun (ds : DispatchState) => ds.bus.wildcardListeners) ds := by
    intro ds c er; rfl
  unfold emit
  dsimp only
  set st1 := addToHistory st e with hst1
  have hlist : st1.listeners = st.listeners := rfl
  have hwild : st1.wildcardListeners = st.wildcardListeners := rfl
  set T := (mapGet st.listeners e.type).getD [] with hTdef
  set ds0 : DispatchState :=
    { bus := st1, typeLive := (mapGet st1.listeners e.type).isSome,
      calls := [], errors := [] } with hds0
  have hset1 : typeIterSet e.type ds0 = [] ++ T := by
    rw [List.nil_append]
    unfold typeIterSet
    rw [hds0]
    dsimp only
    rw [hlist]
    cases h : mapGet st.listeners e.type with
    | none => simp [hTdef, h]
    | some s => simp [hTdef, h]
  have h1 := phaseLoop_nonmut env e e.type (typeIterSet e.type) henv hiter1
    T [] (((mapGet st1.listeners e.type).getD []).length + envStepCount env + 1)
    ds0 hset1 (by simpa using hT) (by simp only [hlist, hTdef]; omega)
  rw [h1]
  set ds1 : DispatchState :=
    { bus := ds0.bus, typeLive := ds0.typeLive,
      calls := ds0.calls ++ notifiedOf env e T,
      errors := ds0.errors ++ reportedOf env e T } with hds1
  have hset2 : ds1.bus.wildcardListeners = [] ++ st.wildcardListeners := by
    rw [List.nil_append]
    exact hwild
  have h2 := phaseLoop_nonmut env e e.type
    (fun (ds : DispatchState) => ds.bus.wildcardListeners) henv hiter2
    st.wildcardListeners [] (ds1.bus.wildcardListeners.length + envStepCount env + 1)
    ds1 hset2 (by simpa using hW)
    (by rw [show ds1.bus.wildcardListeners = st.wildcardListeners from hwild]
        omega)
  rw [h2]
  refine ⟨by simp [hds1], by simp [hds1], by simp [hds1]⟩

theorem notifiedOf_all_active (env : Env) (e : Event) (S : List ListenerId)
    (h : ∀ l ∈ S, skipsEvent (envFind env l) e = false) :
    notifiedOf env e S = S :=
  List.filter_eq_self.mpr (fun l hl => by simp [h l hl])

/-- C1: under any registered listener set whose bodies do not mutate the
registries, a listener that throws during notification is caught inside the
dispatcher and reported (it appears in the caught-failure trace), every
other non-vetoed listener of the type group and the wildcard group is still
invoked exactly once in order, and `emit` returns normally — its result is
the full dispatch record, never a propagated exception. -/
theorem emit_isolates_listener_failures (env : Env) (st : BusState) (e : Event)
    (henv : envNonMutating env = true)
    (hT : ((mapGet st.listeners e.type).getD []).Nodup)
    (hW : st.wildcardListeners.Nodup) :
    (emit env st e).calls
        = notifiedOf env e ((mapGet st.listeners e.type).getD [])
          ++ notifiedOf env e st.wildcardListeners
    ∧ (emit env st e).errors
        = reportedOf env e ((mapGet st.listeners e.type).getD [])
          ++ reportedOf env e st.wildcardListeners :=
  ⟨(emit_nonMutating env st e henv hT hW).1,
   (emit_nonMutating env st e henv hT hW).2.1⟩

/-- Witness for C1: listener `1` of the `"win"` group throws, yet the call
order is still `0, 1, 2` (type group then wildcard) and the failure of `1`
is recorded as caught. -/
theorem emit_isolates_listener_failures_witness :
    (emit envThrow stABC ⟨"win", 0⟩).calls = [0, 1, 2]
    ∧ (emit envThrow stABC ⟨"win", 0⟩).errors = [1] := by
  have h := emit_isolates_listener_failures envThrow stABC ⟨"win", 0⟩
    (by decide) (by decide) (by decide)
  exact ⟨h.1.trans (by decide), h.2.trans (by decide)⟩

/-- C2: with no mutation (and no `canHandle` veto) during dispatch, `emit`
notifies the listeners registered for `event.type` first, in subscription
order, followed by the wildcard listeners in subscription order, each
exactly once. -/
theorem emit_delivery_order (env : Env) (st : BusState) (e : Event)
    (henv : envNonMutating env = true)
    (hT : ((mapGet st.listeners e.type).getD []).Nodup)
    (hW : st.wildcardListeners.Nodup)
    (hact : ∀ l ∈ ((mapGet st.listeners e.type).getD []) ++ st.wildcardListeners,
        skipsEvent (envFind env l) e = false) :
    (emit env st e).calls
      = ((mapGet st.listeners e.type).getD []) ++ st.wildcardListeners := by
  rw [(emit_nonMutating env st e henv hT hW).1]
  rw [notifiedOf_all_active env e _
        (fun l hl => hact l (List.mem_append.mpr (Or.inl hl))),
      notifiedOf_all_active env e _
        (fun l hl => hact l (List.mem_append.mpr (Or.inr hl)))]

/-- Witness for C2, the spec's scenario: `0` (A) then `1` (B) subscribed to
`"win"`, `2` (C) on the wildcard; emitting one `"win"` event calls
`0, 1, 2`, each exactly once. -/
theorem emit_delivery_order_witness :
    (emit envABC stABC ⟨"win", 0⟩).calls = [0, 1, 2] := by
  have h := emit_delivery_order envABC stABC ⟨"win", 0⟩
    (by decide) (by decide) (by decide) (by decide)
  exact h.trans (by decide)

/-- C9: a subscribed handler object whose `canHandle` returns `false` for
the emitted event is never invoked for it and is not reported as a failed
delivery, while every other non-vetoed listener is still notified. -/
theorem canHandle_false_skips_without_error (env : Env) (st : BusState)
    (e : Event) (l0 : ListenerId) (p : Event → Bool)
    (henv : envNonMutating env = true)
    (hT : ((mapGet st.listeners e.type).getD []).Nodup)
    (hW : st.wildcardListeners.Nodup)
    (hfn : (envFind env l0).isFn = false)
    (hch : (envFind env l0).canHandlePred = some p)
    (hp : p e = false) :
    l0 ∉ (emit env st e).calls
    ∧ l0 ∉ (emit env st e).errors
    ∧ (emit env st e).calls
        = notifiedOf env e ((mapGet st.listeners e.type).getD [])
          ++ notifiedOf env e st.wildcardListeners := by
  have hskip : skipsEvent (envFind env l0) e = true := by
    simp [skipsEvent, hfn, hch, hp]
  have h := emit_nonMutating env st e henv hT hW
  refine ⟨?_, ?_, h.1⟩
  · rw [h.1]
    intro hmem
    rcases List.mem_append.mp hmem with hm | hm <;>
      · unfold notifiedOf at hm
        have := List.of_mem_filter hm
        simp [hskip] at this
  · rw [h.2.1]
    intro hmem
    rcases List.mem_append.mp hmem with hm | hm <;>
      · unfold reportedOf at hm
        have := List.of_mem_filter hm
        simp [hskip] at this

/-- Witness for C9: handler `0` (whose `canHandle` accepts only `"other"`
events) is registered for `"t"` alongside callback `1`; emitting a `"t"`
event invokes only `1`, with no reported failure. -/
theorem canHandle_false_skips_without_error_witness :
    0 ∉ (emit envC9 stC3 ⟨"t", 7⟩).calls
    ∧ (emit envC9 stC3 ⟨"t", 7⟩).calls = [1]
    ∧ (emit envC9 stC3 ⟨"t", 7⟩).errors = [] := by
  have h := canHandle_false_skips_without_error envC9 stC3 ⟨"t", 7⟩ 0
    (fun e => e.type = "other") (by decide) (by decide) (by decide)
    (by rfl) (by rfl) (by decide)
  exact ⟨h.1, h.2.2.trans (by decide), by decide⟩

/-!
## Registry lemmas for the double-subscription claim
-/

theorem mapGet_none_keys (m : Registry) (t : String) (h : mapGet m t = none) :
    ∀ x ∈ m, (decide (x.1 = t)) = false := by
  have hf : m.find? (fun p => p.1 = t) = none := by
    cases hf : m.find? (fun p => p.1 = t) with
    | none => rfl
    | some q => simp [mapGet, hf] at h
  intro x hx
  have := List.find?_eq_none.mp hf x hx
  simpa using this

theorem mapGet_append_single (m : Registry) (t : String) (s : List ListenerId)
    (h : mapGet m t = none) : mapGet (m ++ [(t, s)]) t = some s := by
  unfold mapGet
  rw [find?_append_left_none _ m _ (mapGet_none_keys m t h),
      List.find?_cons_of_pos _ (by simp)]
  rfl

theorem mapSet_after_append (m : Registry) (t : String)
    (s0 s : List ListenerId) (h : mapGet m t = none) :
    mapSet (m ++ [(t, s0)]) t s = m ++ [(t, s)] := by
  unfold mapSet
  have hf : ((m ++ [(t, s0)]).find? (fun p => p.1 = t)) = some (t, s0) := by
    rw [find?_append_left_none _ m _ (mapGet_none_keys m t h)]
    exact List.find?_cons_of_pos _ (by simp)
  rw [hf]
  simp only [Option.isSome_some, if_true]
  rw [List.map_append]
  have hm : m.map (fun p => if p.1 = t then (t, s) else p) = m := by
    have hpt : ∀ p ∈ m, (if p.1 = t then (t, s) else p) = p := by
      intro p hp
      have hne := mapGet_none_keys m t h p hp
      simp only [decide_eq_false_iff_not] at hne
      simp [hne]
    rw [List.map_congr_left hpt]
    simp
  rw [hm]
  simp

theorem mapGet_mapDelete_self (m : Registry) (t : String) :
    mapGet (mapDelete m t) t = none := by
  unfold mapGet mapDelete
  have : (m.filter (fun p => p.1 ≠ t)).find? (fun p => p.1 = t) = none := by
    apply List.find?_eq_none.mpr
    intro x hx
    have := List.of_mem_filter hx
    simpa using this
  rw [this]
  rfl

theorem subscribe_fresh (st : BusState) (t : String) (l : ListenerId)
    (h : mapGet st.listeners t = none) :
    (subscribe st t l).1.listeners = st.listeners ++ [(t, [l])] := by
  unfold subscribe
  dsimp only
  rw [h]
  unfold mapSet
  have hf : st.listeners.find? (fun p => p.1 = t) = none :=
    List.find?_eq_none.mpr (fun x hx => by simp [mapGet_none_keys st.listeners t h x hx])
  simp [hf, setAdd]

theorem subscribe_wildcard (st : BusState) (t : String) (l : ListenerId) :
    (subscribe st t l).1.wildcardListeners = st.wildcardListeners := rfl

theorem subscribe_listeners (st : BusState) (t : String) (l : ListenerId) :
    (subscribe st t l).1.listeners
      = mapSet st.listeners t (setAdd ((mapGet st.listeners t).getD []) l) := rfl

/-- C10 (amended form is the claim itself): subscribing the same listener
reference twice under the same type leaves a single registration —
`getSubscriberCount` is `1`, the two returned handles are the same record,
a subsequent emit of that type invokes the listener exactly once, and
`unsubscribe()` on either handle removes the registration (and its now
empty type entry) entirely. -/
theorem subscribe_idempotent_same_listener (env : Env) (st : BusState)
    (t : String) (l : ListenerId) (e : Event)
    (hstar : t ≠ "*")
    (hnone : mapGet st.listeners t = none)
    (hWnil : st.wildcardListeners = [])
    (henv : envNonMutating env = true)
    (hact : skipsEvent (envFind env l) e = false)
    (het : e.type = t) :
    getSubscriberCount (subscribe (subscribe st t l).1 t l).1 t = 1
    ∧ (subscribe (subscribe st t l).1 t l).2 = (subscribe st t l).2
    ∧ (emit env (subscribe (subscribe st t l).1 t l).1 e).calls = [l]
    ∧ mapGet (subscriptionUnsubscribe (subscribe (subscribe st t l).1 t l).1
        ⟨t, l, true⟩).1.listeners t = none := by
  have h1 : (subscribe st t l).1.listeners = st.listeners ++ [(t, [l])] :=
    subscribe_fresh st t l hnone
  have hget1 : mapGet (subscribe st t l).1.listeners t = some [l] := by
    rw [h1]
    exact mapGet_append_single st.listeners t [l] hnone
  have h2 : (subscribe (subscribe st t l).1 t l).1.listeners
      = st.listeners ++ [(t, [l])] := by
    rw [subscribe_listeners, hget1, h1]
    simp only [Option.getD_some]
    rw [show setAdd [l] l = [l] by simp [setAdd]]
    exact mapSet_after_append st.listeners t [l] [l] hnone
  have hget2 : mapGet (subscribe (subscribe st t l).1 t l).1.listeners t
      = some [l] := by
    rw [h2]
    exact mapGet_append_single st.listeners t [l] hnone
  refine ⟨?_, rfl, ?_, ?_⟩
  · unfold getSubscriberCount
    rw [hget2]
    rfl
  · have hw2 : (subscribe (subscribe st t l).1 t l).1.wildcardListeners = [] := by
      rw [subscribe_wildcard, subscribe_wildcard]
      exact hWnil
    have hTset : (mapGet (subscribe (subscribe st t l).1 t l).1.listeners e.type).getD []
        = [l] := by
      rw [het, hget2]
      rfl
    have h := (emit_nonMutating env (subscribe (subscribe st t l).1 t l).1 e
      henv (by rw [hTset]; exact List.nodup_singleton l)
      (by rw [hw2]; exact List.nodup_nil)).1
    rw [h, hTset, hw2]
    rw [notifiedOf_all_active env e [l] (by
      intro x hx
      have hxl : x = l := by simpa using hx
      rw [hxl]
      exact hact)]
    simp [notifiedOf]
  · have hsub : subscriptionUnsubscribe (subscribe (subscribe st t l).1 t l).1
        ⟨t, l, true⟩
        = (unsubscribe (subscribe (subscribe st t l).1 t l).1 t l,
           ⟨t, l, false⟩) := rfl
    rw [hsub]
    dsimp only
    unfold unsubscribe
    rw [if_neg hstar, hget2]
    dsimp only
    rw [show setDelete [l] l = ([] : List ListenerId) by simp [setDelete]]
    simp [mapGet_mapDelete_self]

/-- Witness for C10: from the fresh bus, subscribing listener `0` twice to
`"t"` yields one registration, one invocation on emit, and a handle whose
`unsubscribe` empties the registry entry. -/
theorem subscribe_idempotent_same_listener_witness :
    getSubscriberCount (subscribe (subscribe initialBus "t" 0).1 "t" 0).1 "t" = 1
    ∧ (emit [(0, idleFn)] (subscribe (subscribe initialBus "t" 0).1 "t" 0).1
        ⟨"t", 5⟩).calls = [0]
    ∧ mapGet (subscriptionUnsubscribe (subscribe (subscribe initialBus "t" 0).1 "t" 0).1
        ⟨"t", 0, true⟩).1.listeners "t" = none := by
  have h := subscribe_idempotent_same_listener [(0, idleFn)] initialBus "t" 0
    ⟨"t", 5⟩ (by decide) (by decide) (by decide) (by decide) (by decide) (by decide)
  exact ⟨h.1, h.2.2.1, h.2.2.2⟩

/-!
## Mutation during dispatch (claim C3)
-/

/-- C3 counterexample: `emit` iterates the *live* sets, not a snapshot.
With `0` and `1` both registered for `"t"` at the start of the emit, `0`
unsubscribing `1` during its own invocation prevents `1` — an
already-registered listener — from being notified for the current event, so
the notified set is not a stable snapshot of the registrations at the start
of the notification phase. -/
theorem emit_not_snapshot_counterexample :
    mapGet stC3.listeners "t" = some [0, 1]
    ∧ (emit envC3 stC3 ⟨"t", 0⟩).calls = [0] := by decide

/-- C3 amended: the live-iteration behaviour of `emit`.  (a) A listener
unsubscribed by an earlier listener during the same dispatch is not
notified for the current event (and stays unsubscribed afterwards); (b) a
listener subscribed to the emitted type during dispatch *is* notified for
the current event; (c) a listener that unsubscribes itself during its own
invocation does not disturb the remaining listeners of that dispatch, does
not raise, and is never invoked again in this or any later emit. -/
theorem emit_live_iteration_amended :
    ((emit envC3 stC3 ⟨"t", 0⟩).calls = [0]
      ∧ mapGet (emit envC3 stC3 ⟨"t", 0⟩).bus.listeners "t" = some [0])
    ∧ ((emit envC3add stC3add ⟨"t", 0⟩).calls = [0, 5]
      ∧ mapGet (emit envC3add stC3add ⟨"t", 0⟩).bus.listeners "t" = some [0, 5])
    ∧ (emitSeq envC3self [⟨"t", 0⟩, ⟨"t", 1⟩] stC3).2 = [[0, 1], [1]] := by
  decide

/-!
## Bounded history (claim C6)
-/

theorem lastN_length {α : Type} (n : Nat) (l : List α) :
    (lastN n l).length = min n l.length := by
  unfold lastN
  rw [List.length_drop]
  omega

theorem lastN_append_absorb {α : Type} (n : Nat) (l es : List α) :
    lastN n (lastN n l ++ es) = lastN n (l ++ es) := by
  unfold lastN
  rw [List.drop_append_eq_append_drop, List.drop_append_eq_append_drop,
      List.drop_drop]
  simp only [List.length_append, List.length_drop]
  congr 2 <;> omega

theorem addToHistory_lastN (st : BusState) (e : Event)
    (h : st.eventHistory.length ≤ st.maxHistorySize) :
    (addToHistory st e).eventHistory
      = lastN st.maxHistorySize (st.eventHistory ++ [e]) := by
  unfold addToHistory lastN
  dsimp only
  by_cases hgt : (st.eventHistory ++ [e]).length > st.maxHistorySize
  · rw [if_pos hgt]
    have hidx : (st.eventHistory ++ [e]).length - st.maxHistorySize = 1 := by
      rw [List.length_append] at *
      simp at *
      omega
    rw [hidx]
  · rw [if_neg hgt]
    have hidx : (st.eventHistory ++ [e]).length - st.maxHistorySize = 0 := by
      omega
    rw [hidx, List.drop_zero]

theorem addToHistory_length (st : BusState) (e : Event)
    (h : st.eventHistory.length ≤ st.maxHistorySize) :
    (addToHistory st e).eventHistory.length ≤ st.maxHistorySize := by
  rw [addToHistory_lastN st e h, lastN_length]
  omega

/-- Folding `emit` keeps the history equal to the most recent
`maxHistorySize` events of everything appended so far. -/
theorem emitSeq_history (env : Env) :
    ∀ (es : List Event) (st : BusState),
      st.eventHistory.length ≤ st.maxHistorySize →
      (emitSeq env es st).1.eventHistory
          = lastN st.maxHistorySize (st.eventHistory ++ es)
      ∧ (emitSeq env es st).1.maxHistorySize = st.maxHistorySize := by
  intro es
  induction es with
  | nil =>
    intro st h
    constructor
    · show st.eventHistory = lastN st.maxHistorySize (st.eventHistory ++ [])
      rw [List.append_nil]
      unfold lastN
      rw [show st.eventHistory.length - st.maxHistorySize = 0 by omega,
          List.drop_zero]
    · rfl
  | cons e es2 ih =>
    intro st h
    have hbh : (emit env st e).bus.eventHistory = (addToHistory st e).eventHistory :=
      emit_eventHistory env st e
    have hbm : (emit env st e).bus.maxHistorySize = st.maxHistorySize :=
      emit_maxHistorySize env st e
    have hlen : (emit env st e).bus.eventHistory.length
        ≤ (emit env st e).bus.maxHistorySize := by
      rw [hbh, hbm]
      exact addToHistory_length st e h
    have ih2 := ih (emit env st e).bus hlen
    have hfst : (emitSeq env (e :: es2) st).1 = (emitSeq env es2 (emit env st e).bus).1 := rfl
    constructor
    · rw [hfst, ih2.1, hbm, hbh, addToHistory_lastN st e h, lastN_append_absorb,
          List.append_assoc]
      rfl
    · rw [hfst, ih2.2, hbm]

/-- C6: the dispatcher's history is a bounded FIFO of capacity `N`
(`maxHistorySize`): over any sequence of emits from an empty history it
holds exactly the most recent `min N (number emitted)` events, its length
never exceeds `N`, and after `N + 1` emitted events the first (oldest)
retained entry is the 2nd emitted event and the retained suffix runs to the
`(N+1)`-th. -/
theorem history_bounded_fifo (env : Env) (N : Nat) (es : List Event)
    (L : Registry) (W : List ListenerId) :
    (emitSeq env es ⟨L, W, [], N⟩).1.eventHistory = lastN N es
    ∧ (emitSeq env es ⟨L, W, [], N⟩).1.eventHistory.length ≤ N
    ∧ (es.length = N + 1 →
        (emitSeq env es ⟨L, W, [], N⟩).1.eventHistory = es.drop 1) := by
  have h := emitSeq_history env es ⟨L, W, [], N⟩ (by simp)
  have h1 : (emitSeq env es ⟨L, W, [], N⟩).1.eventHistory = lastN N es := by
    rw [h.1]
    rfl
  refine ⟨h1, ?_, ?_⟩
  · rw [h1, lastN_length]
    omega
  · intro hlen
    rw [h1]
    unfold lastN
    rw [hlen]
    congr 1
    omega

/-- Witness for C6: with capacity 2 and three distinct events, the retained
history is the 2nd and 3rd events, of length 2. -/
theorem history_bounded_fifo_witness :
    (emitSeq [] [⟨"a", 1⟩, ⟨"b", 2⟩, ⟨"c", 3⟩]
        ⟨[], [], [], 2⟩).1.eventHistory = [⟨"b", 2⟩, ⟨"c", 3⟩] := by
  have h := history_bounded_fifo [] 2 [⟨"a", 1⟩, ⟨"b", 2⟩, ⟨"c", 3⟩] [] []
  exact (h.2.2 (by decide)).trans (by decide)

/-!
## Logger filtering (claim C7)
-/

/-- C7: the retention decision of `shouldLogEvent` — the level gate applies
always; when the include list is non-empty it alone decides (the exclude
list is ignored); when the include list is empty, retention is exactly
non-membership in the exclude list. -/
theorem shouldLogEvent_include_precedence (cfg : EventLoggerConfig) (e : Event)
    (lvl : Nat) :
    shouldLogEvent cfg e lvl
      = (decide (lvl ≤ cfg.logLevel)
         && (if cfg.filterEventTypes.isEmpty then
               !(cfg.excludeEventTypes.contains e.type)
             else cfg.filterEventTypes.contains e.type)) := by
  unfold shouldLogEvent
  by_cases hl : lvl > cfg.logLevel
  · rw [if_pos hl]
    have hd : decide (lvl ≤ cfg.logLevel) = false := by
      simp
      omega
    rw [hd, Bool.false_and]
  · rw [if_neg hl]
    have hd : decide (lvl ≤ cfg.logLevel) = true := by
      simp
      omega
    rw [hd, Bool.true_and]
    cases hft : cfg.filterEventTypes with
    | nil =>
      simp only [hft, List.length_nil, List.isEmpty_nil, if_true]
      rw [if_neg (by omega)]
      cases hc : cfg.excludeEventTypes.contains e.type <;> simp [hc]
    | cons a as =>
      simp [hft]

/-!
## Logger capture (claims C4 and C8)
-/

/-- One `systemEmit` against a `DEBUG`-level logger whose only wildcard
subscriber is its own closure `100`: the event is appended to the log
buffer at the default `DEBUG` severity. -/
theorem systemEmit_debug_step (sys : LoggerSystem) (e : Event)
    (hw : sys.bus.wildcardListeners = [100])
    (hc : sys.closures = [100])
    (hcfg : sys.logger.config = cfgDEBUG)
    (hlen : sys.logger.logs.length < 1000) :
    (systemEmit sys e).logger.logs = sys.logger.logs ++ [⟨e, levelDEBUG⟩]
    ∧ (systemEmit sys e).logger.config = cfgDEBUG
    ∧ (systemEmit sys e).logger.isActive = sys.logger.isActive
    ∧ (systemEmit sys e).bus.wildcardListeners = [100]
    ∧ (systemEmit sys e).closures = [100] := by
  have hshould : shouldLogEvent sys.logger.config e levelDEBUG = true := by
    rw [hcfg]
    unfold shouldLogEvent cfgDEBUG levelDEBUG
    simp
  have hlog : (systemEmit sys e).logger = logEvent sys.logger e := by
    unfold systemEmit
    rw [hw]
    dsimp only [List.foldl]
    rw [hc]
    rw [if_pos (by decide)]
  have hlogev : logEvent sys.logger e
      = addLogEntry sys.logger ⟨e, levelDEBUG⟩ := by
    unfold logEvent
    rw [if_pos hshould]
  have hadd : (addLogEntry sys.logger ⟨e, levelDEBUG⟩).logs
      = sys.logger.logs ++ [⟨e, levelDEBUG⟩] := by
    unfold addLogEntry
    dsimp only
    rw [if_neg (by
      rw [List.length_append, hcfg]
      simp only [List.length_singleton]
      unfold cfgDEBUG
      dsimp only
      omega)]
  refine ⟨?_, ?_, ?_, ?_, hc⟩
  · rw [hlog, hlogev, hadd]
  · rw [hlog, hlogev]
    exact hcfg
  · rw [hlog, hlogev]
    rfl
  · unfold systemEmit
    dsimp only
    rw [addToHistory_wildcard]
    exact hw

/-- C4 counterexample: with the logger at level `INFO` and no filters,
three events of type `"x"` are emitted through the dispatcher (they land in
its history), yet `getLogsByEventType "x"` returns no entries at all — the
wildcard closure logs events at the default `DEBUG` severity, which the
`INFO` threshold rejects. -/
theorem logger_info_level_drops_events_counterexample :
    (systemEmitAll sysINFO threeX).bus.eventHistory = threeX
    ∧ getLogsByEventType (systemEmitAll sysINFO threeX).logger "x" = [] := by
  decide

/-- C4 amended: with the logger at level `DEBUG` (i.e. at or above the
severity the wildcard closure assigns to events) and empty include/exclude
filters, emitting three events of type `"x"` yields exactly three entries
from `getLogsByEventType "x"`, in emission order. -/
theorem logger_debug_level_captures_events (e1 e2 e3 : Event)
    (h1 : e1.type = "x") (h2 : e2.type = "x") (h3 : e3.type = "x") :
    (getLogsByEventType (systemEmitAll sysDEBUG [e1, e2, e3]).logger "x").map
        (fun le => le.event) = [e1, e2, e3] := by
  have hs0w : sysDEBUG.bus.wildcardListeners = [100] := by decide
  have hs0c : sysDEBUG.closures = [100] := by decide
  have hs0cfg : sysDEBUG.logger.config = cfgDEBUG := by decide
  have hs0logs : sysDEBUG.logger.logs = [⟨⟨"logger:message", 0⟩, levelINFO⟩] := by
    decide
  have s1 := systemEmit_debug_step sysDEBUG e1 hs0w hs0c hs0cfg
    (by rw [hs0logs]; decide)
  have s2 := systemEmit_debug_step (systemEmit sysDEBUG e1) e2 s1.2.2.2.1
    s1.2.2.2.2 s1.2.1 (by rw [s1.1, hs0logs]; simp)
  have s3 := systemEmit_debug_step (systemEmit (systemEmit sysDEBUG e1) e2) e3
    s2.2.2.2.1 s2.2.2.2.2 s2.2.1 (by rw [s2.1, s1.1, hs0logs]; simp)
  have hfold : systemEmitAll sysDEBUG [e1, e2, e3]
      = systemEmit (systemEmit (systemEmit sysDEBUG e1) e2) e3 := rfl
  rw [hfold]
  unfold getLogsByEventType
  rw [s3.1, s2.1, s1.1, hs0logs]
  simp [List.filter_append, h1, h2, h3]

/-- Witness for C4 (amended): the three concrete events `threeX`. -/
theorem logger_debug_level_captures_events_witness :
    (getLogsByEventType (systemEmitAll sysDEBUG threeX).logger "x").map
        (fun le => le.event) = threeX := by
  have h := logger_debug_level_captures_events ⟨"x", 1⟩ ⟨"x", 2⟩ ⟨"x", 3⟩
    (by decide) (by decide) (by decide)
  exact h

/-- C8 (code bug): `EventLogger.stop` only flips `isActive` and logs a
message — the wildcard closure installed by `start` stays subscribed (its
handle was discarded) and `logEvent` never consults `isActive`, so an event
emitted *after* `stop()` is still captured into the buffer, contradicting
the method's own "Stop logging events" contract. -/
theorem logger_stop_keeps_capturing :
    (loggerStop sysDEBUG).logger.isActive = false
    ∧ (loggerStop sysDEBUG).bus.wildcardListeners = [100]
    ∧ getLogsByEventType (systemEmit (loggerStop sysDEBUG) ⟨"x", 1⟩).logger "x"
        = [⟨⟨"x", 1⟩, levelDEBUG⟩] := by
  decide

/-!
## Manager teardown (claim C5)
-/

theorem subscriptionUnsubscribe_eventHistory (st : BusState)
    (s : SubscriptionRec) :
    (subscriptionUnsubscribe st s).1.eventHistory = st.eventHistory := by
  unfold subscriptionUnsubscribe
  split
  · exact unsubscribe_eventHistory st s.eventType s.listener
  · rfl

theorem unsubFold_eventHistory :
    ∀ (subs : List SubscriptionRec) (st : BusState),
      (subs.foldl (fun acc s => (subscriptionUnsubscribe acc s).1) st).eventHistory
        = st.eventHistory := by
  intro subs
  induction subs with
  | nil => intro st; rfl
  | cons s rest ih =>
    intro st
    rw [List.foldl_cons, ih, subscriptionUnsubscribe_eventHistory]

theorem handlerStop_eventHistory (st : BusState) (h : HandlerState) :
    (handlerStop st h).1.eventHistory = st.eventHistory := by
  unfold handlerStop
  split
  · exact unsubFold_eventHistory h.subscriptions st
  · rfl

theorem handlerStop_inactive (st : BusState) (h : HandlerState) :
    (handlerStop st h).2.isActive = false := by
  unfold handlerStop
  split
  · rfl
  · rename_i hcond
    simpa using hcond

theorem stopFold_eventHistory :
    ∀ (hs : List (String × HandlerState))
      (acc : BusState × List (String × HandlerState)),
      (hs.foldl
        (fun acc nh =>
          let r := handlerStop acc.1 nh.2
          (r.1, acc.2 ++ [(nh.1, r.2)])) acc).1.eventHistory
        = acc.1.eventHistory := by
  intro hs
  induction hs with
  | nil => intro acc; rfl
  | cons nh hs2 ih =>
    intro acc
    rw [List.foldl_cons, ih]
    exact handlerStop_eventHistory acc.1 nh.2

theorem stopFold_inactive :
    ∀ (hs : List (String × HandlerState))
      (acc : BusState × List (String × HandlerState)),
      (∀ p ∈ acc.2, p.2.isActive = false) →
      ∀ p ∈ (hs.foldl
        (fun acc nh =>
          let r := handlerStop acc.1 nh.2
          (r.1, acc.2 ++ [(nh.1, r.2)])) acc).2, p.2.isActive = false := by
  intro hs
  induction hs with
  | nil => intro acc hacc; exact hacc
  | cons nh hs2 ih =>
    intro acc hacc
    rw [List.foldl_cons]
    apply ih
    intro p hp
    rcases List.mem_append.mp hp with hm | hm
    · exact hacc p hm
    · have : p = (nh.1, (handlerStop acc.1 nh.2).2) := by simpa using hm
      rw [this]
      exact handlerStop_inactive acc.1 nh.2

theorem addLogEntry_isActive (ls : LoggerState) (le : LogEntry) :
    (addLogEntry ls le).isActive = ls.isActive := rfl

theorem logMessage_isActive (ls : LoggerState) (lvl : Nat) :
    (logMessage ls lvl).isActive = ls.isActive := by
  unfold logMessage
  split
  · rfl
  · rfl

theorem loggerStopState_isActive (lg : LoggerState) :
    (loggerStopState lg).isActive = false := by
  unfold loggerStopState
  split
  · rw [logMessage_isActive]
  · rename_i h
    simpa using h

/-- C5 amended: `destroy()` stops every handler, stops the logger, clears
every subscription (specific and wildcard) and resets the `initialize`
guard — but the dispatcher's event history is *not* cleared: `destroy` only
calls `EventBus.clear`, which drops subscriptions and leaves the history
untouched, so the pre-destroy history survives verbatim. -/
theorem managerDestroy_resets_except_history (m : ManagerState)
    (lg : LoggerState) :
    (managerDestroy m).bus.listeners = []
    ∧ (managerDestroy m).bus.wildcardListeners = []
    ∧ (managerDestroy m).handlers = []
    ∧ (managerDestroy m).isInitialized = false
    ∧ (managerDestroy m).bus.eventHistory = m.bus.eventHistory
    ∧ (managerDestroy m).eventLogger = m.eventLogger.map loggerStopState
    ∧ ((stopAllHandlers m).2.all (fun p => !p.2.isActive)) = true
    ∧ (loggerStopState lg).isActive = false := by
  refine ⟨rfl, rfl, rfl, rfl, ?_, rfl, ?_, loggerStopState_isActive lg⟩
  · show (clear (stopAllHandlers m).1).eventHistory = m.bus.eventHistory
    have hclear : (clear (stopAllHandlers m).1).eventHistory
        = (stopAllHandlers m).1.eventHistory := rfl
    rw [hclear]
    unfold stopAllHandlers
    exact stopFold_eventHistory m.handlers (m.bus, [])
  · apply List.all_eq_true.mpr
    intro p hp
    have := stopFold_inactive m.handlers (m.bus, []) (by intro q hq; simp at hq) p
      (by exact hp)
    simp [this]

/-- C5 counterexample: destroying an initialized manager whose dispatcher
already recorded one event leaves that event in the history — the claim's
"event history is empty" conjunct is false. -/
theorem destroy_keeps_history_counterexample :
    (managerDestroy mgrScenario).bus.eventHistory = [⟨"a", 1⟩]
    ∧ (managerDestroy mgrScenario).bus.eventHistory ≠ [] := by
  decide

end SlotGame
